import Mathlib

/-!
Formal model of the UVPCB countdown-timer firmware (`UVPCB.ino`).

The sketch is a single `loop()` driven by three inputs: the shared encoder
position (mutated by the `doEncoder` interrupt), the encoder push button, and
the millisecond clock.  The two terminal screens (`countdownFinished`,
`abortCountdown`) block inside busy-wait polling loops; we model them as
explicit phases (`WaitFinished`, `WaitAborted`) of a step machine, where each
step is either one `loop()` iteration or one poll of a busy-wait loop.
Machine `int`s are modelled as `Int`, `unsigned long` timestamps as `Nat`
with a monotone clock, and calls to the display, buzzer and relay drivers
are recorded as a list of events emitted by each step.
-/

namespace UVPCB

/-- Width of the OLED in pixels (`SCREEN_WIDTH`). -/
def SCREEN_WIDTH : Int := 128

/-- Debounce window for the push button, in ms (`DEBOUNCE_DELAY`). -/
def DEBOUNCE_DELAY : Nat := 300

/-- Threshold below which rotation counts as fast, in ms (`FAST_THRESHOLD`). -/
def FAST_THRESHOLD : Nat := 60

/-- Minimum configurable time in seconds (`MIN_TIME`). -/
def MIN_TIME : Int := 1

/-- Maximum configurable time in seconds (`MAX_TIME`, 30 minutes). -/
def MAX_TIME : Int := 1800

/-- Arduino `constrain(amt, low, high)`. -/
def constrain (x lo hi : Int) : Int :=
  if x < lo then lo else if x > hi then hi else x

/-- Control location of the firmware: the main `loop`, or one of the two
terminal busy-wait loops inside `countdownFinished` / `abortCountdown`. -/
inductive Phase
  | Main
  | WaitFinished
  | WaitAborted
  deriving DecidableEq, Repr

/-- The global mutable variables of the sketch, plus the relay output latch
and the EEPROM cell holding the persisted total-seconds configuration. -/
structure State where
  phase : Phase
  encoderPos : Int
  lastReportedPos : Int
  seconds : Int
  minutes : Int
  initialTotalSeconds : Int
  countdownStarted : Bool
  lastCountdownUpdate : Nat
  lastButtonPress : Nat
  lastEncoderChange : Nat
  relay : Bool
  eeprom : Int
  deriving DecidableEq, Repr

/-- Environment of one step: the clock reading for this iteration, the level
of the button pin (true = pulled low = pressed), and the net number of
`doEncoder` interrupt increments since the previous step. -/
structure Input where
  now : Nat
  buttonLow : Bool
  encDelta : Int
  deriving DecidableEq, Repr

/-- Observable calls into the collaborators: `updateDisplay` (with the
globals it reads at call time), `digitalWrite(RELAY_PIN, _)`, `playAlarm`,
and `playCancel`. -/
inductive Event
  | displayUpdate (countdownStarted : Bool) (minutes seconds initialTotalSeconds : Int)
  | relayWrite (energized : Bool)
  | alarm
  | cancelTone
  deriving DecidableEq, Repr

/-- The interrupt handler `doEncoder`: increments the shared counter when
both phases read equal, otherwise decrements it. -/
def doEncoder (clk dt : Bool) (encoderPos : Int) : Int :=
  if clk = dt then encoderPos + 1 else encoderPos - 1

/-- `isButtonPressed` as a pure function of its state: given the stored
`lastButtonPress`, the clock and the pin level, returns whether the press is
accepted together with the new `lastButtonPress`. -/
def isButtonPressed (lastButtonPress : Nat) (now : Nat) (swLow : Bool) :
    Bool × Nat :=
  if swLow = true then
    if now - lastButtonPress > DEBOUNCE_DELAY then (true, now)
    else (false, lastButtonPress)
  else (false, lastButtonPress)

/-- `saveLastConfiguration`: the value written to the EEPROM cell. -/
def saveLastConfiguration (minutes seconds : Int) : Int :=
  minutes * 60 + seconds

/-- `loadLastConfiguration`: splits a stored in-range value into
minutes/seconds, otherwise falls back to the 5:00 default. -/
def loadLastConfiguration (stored : Int) : Int × Int :=
  if MIN_TIME ≤ stored ∧ stored ≤ MAX_TIME then (stored / 60, stored % 60)
  else (5, 0)

/-- The rotation-speed increment chosen by `loop`: 10 when the time since
the previous configuring-mode encoder change is below `FAST_THRESHOLD`,
otherwise 1. -/
def encoderIncrement (s : State) (now : Nat) : Int :=
  if now - s.lastEncoderChange < FAST_THRESHOLD then 10 else 1

/-- The clamped new total computed by `loop` on an encoder change while not
counting. -/
def encoderTotal (s : State) (now : Nat) : Int :=
  constrain (s.minutes * 60 + s.seconds
      + (s.encoderPos - s.lastReportedPos) * encoderIncrement s now)
    MIN_TIME MAX_TIME

/-- Effect of the configuring-mode encoder adjustment: update the speed
timestamp, split the clamped total, refresh the display, persist, and adopt
the reported position. -/
def encoderApply (s : State) (now : Nat) : State × List Event :=
  ({ s with
      lastEncoderChange := now,
      minutes := encoderTotal s now / 60,
      seconds := encoderTotal s now % 60,
      eeprom := saveLastConfiguration (encoderTotal s now / 60) (encoderTotal s now % 60),
      lastReportedPos := s.encoderPos },
   [Event.displayUpdate s.countdownStarted (encoderTotal s now / 60)
      (encoderTotal s now % 60) s.initialTotalSeconds])

/-- The encoder-change block at the top of `loop`. -/
def encoderStep (s : State) (now : Nat) : State × List Event :=
  if s.lastReportedPos ≠ s.encoderPos then
    if s.countdownStarted = false then encoderApply s now
    else ({ s with lastReportedPos := s.encoderPos }, [])
  else (s, [])

/-- Starting the countdown: snapshot the initial total, energize the relay,
and stamp the tick clock. -/
def startCountdown (s : State) (now : Nat) : State × List Event :=
  ({ s with
      countdownStarted := true,
      initialTotalSeconds := s.minutes * 60 + s.seconds,
      relay := true,
      lastCountdownUpdate := now },
   [Event.relayWrite true])

/-- Entry of `abortCountdown`: de-energize the relay, play the cancel tones,
and fall into the busy-wait loop, modelled as the `WaitAborted` phase. -/
def abortCountdown (s : State) : State × List Event :=
  ({ s with relay := false, phase := Phase.WaitAborted },
   [Event.relayWrite false, Event.cancelTone])

/-- The button block of `loop`. -/
def buttonStep (s : State) (now : Nat) (swLow : Bool) : State × List Event :=
  if (isButtonPressed s.lastButtonPress now swLow).1 = true then
    if s.countdownStarted = false then
      startCountdown { s with lastButtonPress := now } now
    else
      abortCountdown { s with lastButtonPress := now }
  else (s, [])

/-- Entry of `countdownFinished`: de-energize the relay, play the alarm, and
fall into the busy-wait loop, modelled as the `WaitFinished` phase. -/
def countdownFinished (s : State) : State × List Event :=
  ({ s with relay := false, phase := Phase.WaitFinished },
   [Event.relayWrite false, Event.alarm])

/-- The per-second decrement of the countdown, borrowing from minutes. -/
def tickDecrement (s : State) : State :=
  if s.seconds = 0 then { s with minutes := s.minutes - 1, seconds := 59 }
  else { s with seconds := s.seconds - 1 }

/-- The countdown block at the bottom of `loop`: on a due tick, either
decrement and refresh the display, or finish. -/
def tickStep (s : State) (now : Nat) : State × List Event :=
  if s.countdownStarted = true then
    if 1000 ≤ now - s.lastCountdownUpdate then
      if 0 < s.seconds ∨ 0 < s.minutes then
        (tickDecrement { s with lastCountdownUpdate := now },
         [Event.displayUpdate s.countdownStarted
            (tickDecrement { s with lastCountdownUpdate := now }).minutes
            (tickDecrement { s with lastCountdownUpdate := now }).seconds
            s.initialTotalSeconds])
      else countdownFinished { s with lastCountdownUpdate := now }
    else (s, [])
  else (s, [])

/-- One iteration of `loop()`.  If the button block aborted the countdown we
are now blocked inside `abortCountdown`, so the countdown block of this
iteration does not run (in the source it runs only after the busy wait, with
`countdownStarted` already false, and is a no-op). -/
def loop (s : State) (i : Input) : State × List Event :=
  if ((buttonStep (encoderStep s i.now).1 i.now i.buttonLow).1).phase = Phase.Main then
    ((tickStep (buttonStep (encoderStep s i.now).1 i.now i.buttonLow).1 i.now).1,
     (encoderStep s i.now).2
       ++ (buttonStep (encoderStep s i.now).1 i.now i.buttonLow).2
       ++ (tickStep (buttonStep (encoderStep s i.now).1 i.now i.buttonLow).1 i.now).2)
  else
    ((buttonStep (encoderStep s i.now).1 i.now i.buttonLow).1,
     (encoderStep s i.now).2
       ++ (buttonStep (encoderStep s i.now).1 i.now i.buttonLow).2)

/-- `resetTimer`: leave the terminal wait, resynchronize the shared encoder
counter to the last reported baseline, and refresh the display (which now
shows the configuring screen, `countdownStarted` being already false). -/
def resetTimer (s : State) : State × List Event :=
  ({ s with countdownStarted := false, encoderPos := s.lastReportedPos,
            phase := Phase.Main },
   [Event.displayUpdate false s.minutes s.seconds s.initialTotalSeconds])

/-- One poll of a terminal busy-wait loop: on an accepted press, run
`resetTimer` and return to the main loop. -/
def waitStep (s : State) (now : Nat) (swLow : Bool) : State × List Event :=
  if (isButtonPressed s.lastButtonPress now swLow).1 = true then
    resetTimer { s with lastButtonPress := now }
  else (s, [])

/-- One step of the whole firmware: first credit the interrupt increments
accumulated since the previous step, then run either a `loop()` iteration or
one busy-wait poll, according to the current control location. -/
def step (s : State) (i : Input) : State × List Event :=
  match s.phase with
  | Phase.Main => loop { s with encoderPos := s.encoderPos + i.encDelta } i
  | Phase.WaitFinished =>
      waitStep { s with encoderPos := s.encoderPos + i.encDelta } i.now i.buttonLow
  | Phase.WaitAborted =>
      waitStep { s with encoderPos := s.encoderPos + i.encDelta } i.now i.buttonLow

/-- `setup()`: pins configured (relay output low), configuration loaded from
the given EEPROM contents, globals at their initializers. -/
def setup (stored : Int) : State :=
  { phase := Phase.Main
    encoderPos := 0
    lastReportedPos := 0
    seconds := (loadLastConfiguration stored).2
    minutes := (loadLastConfiguration stored).1
    initialTotalSeconds := 0
    countdownStarted := false
    lastCountdownUpdate := 0
    lastButtonPress := 0
    lastEncoderChange := 0
    relay := false
    eeprom := stored }

/-- The configured / remaining total in seconds (`minutes * 60 + seconds`). -/
def dur (s : State) : Int := s.minutes * 60 + s.seconds

/-- The spec's `TimerState`, recovered from the control location and the
`countdownStarted` flag. -/
inductive TState
  | Configuring
  | Counting
  | Finished
  | Aborted
  deriving DecidableEq, Repr

/-- Mapping from concrete firmware state to the spec's `TimerState`. -/
def timerState (s : State) : TState :=
  match s.phase with
  | Phase.Main => if s.countdownStarted = true then TState.Counting else TState.Configuring
  | Phase.WaitFinished => TState.Finished
  | Phase.WaitAborted => TState.Aborted

/-- States reachable from `setup` under a monotone millisecond clock, paired
with the clock value of the step that produced them. -/
inductive Reachable : State → Nat → Prop
  | boot (stored : Int) : Reachable (setup stored) 0
  | next (s : State) (t : Nat) (i : Input) :
      Reachable s t → t ≤ i.now → Reachable (step s i).1 i.now

/-- Run a list of step inputs from a state, keeping only the state. -/
def run (s : State) : List Input → State
  | [] => s
  | i :: is => run (step s i).1 is

/-- Number of accepted presses over a sequence of (clock, pin-level) polls,
threading the debounce state through `isButtonPressed`. -/
def pollAcceptCount (lastButtonPress : Nat) : List (Nat × Bool) → Nat
  | [] => 0
  | p :: ps =>
      (if (isButtonPressed lastButtonPress p.1 p.2).1 = true then 1 else 0) +
        pollAcceptCount (isButtonPressed lastButtonPress p.1 p.2).2 ps

/-!
Two concrete executions, fully evaluated, used below as witnesses and
counterexamples.  The first configures 0:01, starts, runs the countdown to
the end and acknowledges the finish screen; the second configures 0:12,
starts, and is later aborted at 0:10.
-/

def s0 : State := setup 300

def s1 : State := (step s0 ⟨100, false, -299⟩).1

def s2 : State := (step s1 ⟨1000, true, 0⟩).1

def s3 : State := (step s2 ⟨2000, false, 0⟩).1

def s4 : State := (step s3 ⟨3000, false, 0⟩).1

def s5 : State := (step s4 ⟨4000, true, 0⟩).1

def a1 : State := (step s0 ⟨100, false, -288⟩).1

def a2 : State := (step a1 ⟨1000, true, 0⟩).1

def a3 : State := (step a2 ⟨2000, false, 0⟩).1

def a4 : State := (step a3 ⟨3000, false, 0⟩).1

/-- Claim C2 as stated: at every reachable point the configured duration
lies in `[MIN_TIME, MAX_TIME]` whenever the machine is not counting, and the
remaining duration while counting lies in `[0, Duration-at-start]`. -/
def C2_claim : Prop :=
  ∀ s t, Reachable s t →
    (timerState s ≠ TState.Counting → MIN_TIME ≤ dur s ∧ dur s ≤ MAX_TIME) ∧
    (timerState s = TState.Counting → 0 ≤ dur s ∧ dur s ≤ s.initialTotalSeconds)

/-- Claim C4 as stated: an accepted press while counting aborts with the
relay immediately off, and a subsequent accepted press returns to
`Configuring` with the configured time reset to the pre-countdown duration
(the snapshot in `initialTotalSeconds`). -/
def C4_claim : Prop :=
  ∀ s t (i j : Input), Reachable s t → t ≤ i.now → i.now ≤ j.now →
    s.phase = Phase.Main → s.countdownStarted = true →
    i.buttonLow = true → DEBOUNCE_DELAY < i.now - s.lastButtonPress →
    ((step s i).1.phase = Phase.WaitAborted ∧ (step s i).1.relay = false ∧
     (j.buttonLow = true → DEBOUNCE_DELAY < j.now - (step s i).1.lastButtonPress →
       (step (step s i).1 j).1.phase = Phase.Main ∧
       (step (step s i).1 j).1.countdownStarted = false ∧
       dur (step (step s i).1 j).1 = s.initialTotalSeconds))

/-- Claim C5 as stated: while counting at 0:01 with no button interference,
a single due tick (at least 1000 ms after the previous one) transitions to
`Finished`, de-energizes the relay and triggers the alarm. -/
def C5_claim : Prop :=
  ∀ s t i, Reachable s t → t ≤ i.now →
    s.phase = Phase.Main → s.countdownStarted = true →
    i.buttonLow = false →
    s.minutes = 0 → s.seconds = 1 →
    1000 ≤ i.now - s.lastCountdownUpdate →
    ((step s i).1.phase = Phase.WaitFinished ∧ (step s i).1.relay = false ∧
     Event.alarm ∈ (step s i).2)

/-- Claim C8's at-most-once part as stated: over any time-ordered sequence
of polls during which the pin reads low throughout (one continuous physical
press), at most one poll is accepted. -/
def C8_claim : Prop :=
  ∀ l polls, List.Chain' (fun p q : Nat × Bool => p.1 ≤ q.1) polls →
    (∀ p ∈ polls, p.2 = true) → pollAcceptCount l polls ≤ 1

/-!
Inductive invariant of the reachable states: the relay is latched high
exactly in the counting location, the minutes/seconds pair is a well-formed
split whose total never exceeds `MAX_TIME`, and while counting the total is
bounded by the snapshot taken at countdown start.
-/

/-- Inductive invariant of the firmware state. -/
structure Inv (s : State) : Prop where
  relay_iff : s.relay = true ↔ (s.phase = Phase.Main ∧ s.countdownStarted = true)
  sec_lb : 0 ≤ s.seconds
  sec_ub : s.seconds ≤ 59
  min_lb : 0 ≤ s.minutes
  dur_ub : dur s ≤ MAX_TIME
  counting_le : s.countdownStarted = true → dur s ≤ s.initialTotalSeconds

lemma constrain_mem (x lo hi : Int) (h : lo ≤ hi) :
    lo ≤ constrain x lo hi ∧ constrain x lo hi ≤ hi := by
  unfold constrain
  split_ifs <;> omega

lemma encoderTotal_mem (s : State) (now : Nat) :
    MIN_TIME ≤ encoderTotal s now ∧ encoderTotal s now ≤ MAX_TIME := by
  unfold encoderTotal
  exact constrain_mem _ _ _ (by unfold MIN_TIME MAX_TIME; omega)

lemma load_mem (stored : Int) :
    0 ≤ (loadLastConfiguration stored).2 ∧ (loadLastConfiguration stored).2 ≤ 59 ∧
    0 ≤ (loadLastConfiguration stored).1 ∧
    (loadLastConfiguration stored).1 * 60 + (loadLastConfiguration stored).2 ≤ 1800 ∧
    1 ≤ (loadLastConfiguration stored).1 * 60 + (loadLastConfiguration stored).2 := by
  unfold loadLastConfiguration MIN_TIME MAX_TIME
  split_ifs with h
  · refine ⟨?_, ?_, ?_, ?_, ?_⟩ <;> simp <;> omega
  · norm_num

lemma inv_setup (stored : Int) : Inv (setup stored) := by
  have hl := load_mem stored
  refine ⟨?_, ?_, ?_, ?_, ?_, ?_⟩ <;> simp [setup, dur, MAX_TIME] <;> omega

lemma encoderStep_phase (s : State) (now : Nat) :
    (encoderStep s now).1.phase = s.phase := by
  unfold encoderStep encoderApply
  split_ifs <;> rfl

lemma inv_encoderApply (s : State) (now : Nat) (hc : s.countdownStarted = false)
    (h : Inv s) : Inv (encoderApply s now).1 := by
  obtain ⟨h1, h2, h3, h4, h5, h6⟩ := h
  have hm := encoderTotal_mem s now
  simp only [MIN_TIME, MAX_TIME] at hm
  refine ⟨?_, ?_, ?_, ?_, ?_, ?_⟩
  · simpa [encoderApply] using h1
  · simp only [encoderApply]
    omega
  · simp only [encoderApply]
    omega
  · simp only [encoderApply]
    omega
  · simp only [encoderApply, dur, MAX_TIME]
    omega
  · simp [encoderApply, hc]

lemma inv_encoderStep (s : State) (now : Nat) (h : Inv s) :
    Inv (encoderStep s now).1 := by
  unfold encoderStep
  split_ifs with hne hc
  · exact inv_encoderApply s now hc h
  · obtain ⟨h1, h2, h3, h4, h5, h6⟩ := h
    exact ⟨h1, h2, h3, h4, h5, h6⟩
  · exact h

lemma inv_buttonStep (s : State) (now : Nat) (b : Bool)
    (hp : s.phase = Phase.Main) (h : Inv s) : Inv (buttonStep s now b).1 := by
  obtain ⟨h1, h2, h3, h4, h5, h6⟩ := h
  unfold buttonStep
  split_ifs with hacc hc
  · refine ⟨?_, h2, h3, h4, h5, ?_⟩
    · simp [startCountdown, hp]
    · exact fun _ => le_refl _
  · refine ⟨?_, h2, h3, h4, h5, h6⟩
    simp [abortCountdown]
  · exact ⟨h1, h2, h3, h4, h5, h6⟩

lemma inv_tickDecrement (s : State) (hpos : 0 < s.seconds ∨ 0 < s.minutes)
    (h : Inv s) : Inv (tickDecrement s) := by
  obtain ⟨h1, h2, h3, h4, h5, h6⟩ := h
  simp only [dur, MAX_TIME] at h5 h6
  unfold tickDecrement
  split_ifs with hz
  · refine ⟨h1, by norm_num, by norm_num, ?_, ?_, ?_⟩
    · simp only
      omega
    · simp only [dur, MAX_TIME]
      omega
    · intro hcs
      have := h6 hcs
      simp only [dur]
      omega
  · refine ⟨h1, ?_, ?_, h4, ?_, ?_⟩
    · simp only
      omega
    · simp only
      omega
    · simp only [dur, MAX_TIME]
      omega
    · intro hcs
      have := h6 hcs
      simp only [dur]
      omega

lemma inv_tickStep (s : State) (now : Nat) (h : Inv s) :
    Inv (tickStep s now).1 := by
  obtain ⟨h1, h2, h3, h4, h5, h6⟩ := h
  unfold tickStep
  split_ifs with hc hdue hpos
  · exact inv_tickDecrement _ hpos ⟨h1, h2, h3, h4, h5, h6⟩
  · refine ⟨?_, h2, h3, h4, h5, h6⟩
    simp [countdownFinished]
  · exact ⟨h1, h2, h3, h4, h5, h6⟩
  · exact ⟨h1, h2, h3, h4, h5, h6⟩

lemma inv_waitStep (s : State) (now : Nat) (b : Bool)
    (hp : s.phase ≠ Phase.Main) (h : Inv s) : Inv (waitStep s now b).1 := by
  obtain ⟨h1, h2, h3, h4, h5, h6⟩ := h
  have hrel : s.relay = false := by
    cases hr : s.relay
    · rfl
    · exact absurd (h1.mp hr).1 hp
  unfold waitStep resetTimer
  split_ifs with hacc
  · refine ⟨?_, h2, h3, h4, h5, ?_⟩
    · simp [hrel]
    · simp
  · exact ⟨h1, h2, h3, h4, h5, h6⟩

lemma inv_loop (s : State) (i : Input) (hp : s.phase = Phase.Main) (h : Inv s) :
    Inv (loop s i).1 := by
  have hb : Inv (buttonStep (encoderStep s i.now).1 i.now i.buttonLow).1 :=
    inv_buttonStep _ _ _ (by rw [encoderStep_phase]; exact hp) (inv_encoderStep _ _ h)
  unfold loop
  split_ifs with hm
  · exact inv_tickStep _ _ hb
  · exact hb

lemma inv_step (s : State) (i : Input) (h : Inv s) : Inv (step s i).1 := by
  obtain ⟨h1, h2, h3, h4, h5, h6⟩ := h
  have h' : Inv { s with encoderPos := s.encoderPos + i.encDelta } :=
    ⟨h1, h2, h3, h4, h5, h6⟩
  unfold step
  cases hp : s.phase with
  | Main =>
      rw [hp] at h'
      exact inv_loop _ _ rfl h'
  | WaitFinished =>
      rw [hp] at h'
      exact inv_waitStep _ _ _ (by simp) h'
  | WaitAborted =>
      rw [hp] at h'
      exact inv_waitStep _ _ _ (by simp) h'

lemma reachable_inv (s : State) (t : Nat) (h : Reachable s t) : Inv s := by
  induction h with
  | boot stored => exact inv_setup stored
  | next s t i hr ht ih => exact inv_step s i ih

/-!
Characterizations of one step under specific hypotheses, used to settle the
per-transition claims.
-/

lemma isButtonPressed_spec (l now : Nat) (b : Bool) :
    ((isButtonPressed l now b).1 = true ↔ (b = true ∧ DEBOUNCE_DELAY < now - l)) ∧
    ((isButtonPressed l now b).1 = true → (isButtonPressed l now b).2 = now) ∧
    ((isButtonPressed l now b).1 = false → (isButtonPressed l now b).2 = l) := by
  unfold isButtonPressed
  split_ifs with h1 h2 <;> simp_all

lemma step_main (s : State) (i : Input) (hp : s.phase = Phase.Main) :
    step s i = loop { s with encoderPos := s.encoderPos + i.encDelta } i := by
  unfold step
  rw [hp]

lemma step_wait (s : State) (i : Input)
    (hp : s.phase = Phase.WaitFinished ∨ s.phase = Phase.WaitAborted) :
    step s i =
      waitStep { s with encoderPos := s.encoderPos + i.encDelta } i.now i.buttonLow := by
  unfold step
  rcases hp with h | h <;> rw [h]

lemma encoderStep_counting (s : State) (now : Nat) (hc : s.countdownStarted = true) :
    encoderStep s now = ({ s with lastReportedPos := s.encoderPos }, []) := by
  unfold encoderStep
  split_ifs with h1 h2
  · simp_all
  · rfl
  · have h : s.lastReportedPos = s.encoderPos := not_ne_iff.mp h1
    cases s
    simp_all

lemma buttonStep_frame (s : State) (now : Nat) (b : Bool) :
    (buttonStep s now b).1.minutes = s.minutes ∧
    (buttonStep s now b).1.seconds = s.seconds ∧
    (buttonStep s now b).1.eeprom = s.eeprom ∧
    (buttonStep s now b).1.lastEncoderChange = s.lastEncoderChange := by
  unfold buttonStep startCountdown abortCountdown
  split_ifs <;> simp

lemma buttonStep_cs_false (s : State) (now : Nat) (b : Bool)
    (hc : s.countdownStarted = false) :
    (buttonStep s now b).1.phase = s.phase ∧
    ((buttonStep s now b).1.countdownStarted = false ∨
      (buttonStep s now b).1.lastCountdownUpdate = now) := by
  unfold buttonStep startCountdown abortCountdown
  split_ifs <;> simp_all

lemma tickStep_cs_false (s : State) (now : Nat) (hc : s.countdownStarted = false) :
    tickStep s now = (s, []) := by
  unfold tickStep
  rw [if_neg]
  simp [hc]

lemma tickStep_fresh (s : State) (now : Nat) (h : s.lastCountdownUpdate = now) :
    tickStep s now = (s, []) := by
  unfold tickStep
  split_ifs with h1 h2 <;> first | rfl | omega

lemma tickStep_notdue (s : State) (now : Nat)
    (h : now - s.lastCountdownUpdate < 1000) :
    tickStep s now = (s, []) := by
  unfold tickStep
  split_ifs with h1 h2 <;> first | rfl | omega

lemma loop_adjust (s : State) (i : Input) (hp : s.phase = Phase.Main)
    (hc : s.countdownStarted = false) (hch : s.lastReportedPos ≠ s.encoderPos) :
    (loop s i).1.minutes = encoderTotal s i.now / 60 ∧
    (loop s i).1.seconds = encoderTotal s i.now % 60 ∧
    (loop s i).1.eeprom =
      saveLastConfiguration (encoderTotal s i.now / 60) (encoderTotal s i.now % 60) ∧
    (loop s i).1.lastEncoderChange = i.now := by
  have he : encoderStep s i.now = encoderApply s i.now := by
    unfold encoderStep
    rw [if_pos hch, if_pos hc]
  have hecs : (encoderApply s i.now).1.countdownStarted = false := by
    simp [encoderApply, hc]
  have heph : (encoderApply s i.now).1.phase = Phase.Main := by
    simp [encoderApply, hp]
  obtain ⟨hbph, hbdisj⟩ :=
    buttonStep_cs_false (encoderApply s i.now).1 i.now i.buttonLow hecs
  have hcond :
      (buttonStep (encoderApply s i.now).1 i.now i.buttonLow).1.phase = Phase.Main := by
    rw [hbph, heph]
  have ht :
      tickStep (buttonStep (encoderApply s i.now).1 i.now i.buttonLow).1 i.now =
        ((buttonStep (encoderApply s i.now).1 i.now i.buttonLow).1, []) := by
    rcases hbdisj with h | h
    · exact tickStep_cs_false _ _ h
    · exact tickStep_fresh _ _ h
  obtain ⟨hm, hs, hee, hlec⟩ :=
    buttonStep_frame (encoderApply s i.now).1 i.now i.buttonLow
  unfold loop
  rw [he, if_pos hcond, ht]
  refine ⟨?_, ?_, ?_, ?_⟩
  · show (buttonStep (encoderApply s i.now).1 i.now i.buttonLow).1.minutes = _
    rw [hm]
    simp [encoderApply]
  · show (buttonStep (encoderApply s i.now).1 i.now i.buttonLow).1.seconds = _
    rw [hs]
    simp [encoderApply]
  · show (buttonStep (encoderApply s i.now).1 i.now i.buttonLow).1.eeprom = _
    rw [hee]
    simp [encoderApply]
  · show (buttonStep (encoderApply s i.now).1 i.now i.buttonLow).1.lastEncoderChange = _
    rw [hlec]
    simp [encoderApply]

lemma encoderTotal_upd (s : State) (i : Input) :
    encoderTotal { s with encoderPos := s.encoderPos + i.encDelta } i.now =
      constrain (dur s + (s.encoderPos + i.encDelta - s.lastReportedPos) *
        (if i.now - s.lastEncoderChange < FAST_THRESHOLD then 10 else 1))
        MIN_TIME MAX_TIME := by
  unfold encoderTotal encoderIncrement dur
  rfl

lemma step_adjust (s : State) (i : Input) (hp : s.phase = Phase.Main)
    (hc : s.countdownStarted = false)
    (hch : s.lastReportedPos ≠ s.encoderPos + i.encDelta) :
    dur (step s i).1 =
      constrain (dur s + (s.encoderPos + i.encDelta - s.lastReportedPos) *
        (if i.now - s.lastEncoderChange < FAST_THRESHOLD then 10 else 1))
        MIN_TIME MAX_TIME ∧
    MIN_TIME ≤ dur (step s i).1 ∧ dur (step s i).1 ≤ MAX_TIME ∧
    (step s i).1.minutes = dur (step s i).1 / 60 ∧
    (step s i).1.seconds = dur (step s i).1 % 60 ∧
    (step s i).1.eeprom = dur (step s i).1 ∧
    (step s i).1.lastEncoderChange = i.now := by
  rw [step_main s i hp]
  obtain ⟨hm, hs, hee, hlec⟩ :=
    loop_adjust { s with encoderPos := s.encoderPos + i.encDelta } i hp hc hch
  rw [encoderTotal_upd] at hm hs hee
  set T := constrain (dur s + (s.encoderPos + i.encDelta - s.lastReportedPos) *
    (if i.now - s.lastEncoderChange < FAST_THRESHOLD then 10 else 1))
    MIN_TIME MAX_TIME with hT
  have hTb : MIN_TIME ≤ T ∧ T ≤ MAX_TIME := by
    rw [hT]
    exact constrain_mem _ _ _ (by unfold MIN_TIME MAX_TIME; omega)
  simp only [MIN_TIME, MAX_TIME] at hTb
  have hdur : dur (loop { s with encoderPos := s.encoderPos + i.encDelta } i).1 = T := by
    unfold dur
    rw [hm, hs]
    omega
  rw [saveLastConfiguration] at hee
  refine ⟨hdur, ?_, ?_, ?_, ?_, ?_, hlec⟩ <;>
    simp only [hdur, MIN_TIME, MAX_TIME, hm, hs, hee] <;> omega

lemma step_abort (s : State) (i : Input) (hp : s.phase = Phase.Main)
    (hc : s.countdownStarted = true) (hb : i.buttonLow = true)
    (hdeb : DEBOUNCE_DELAY < i.now - s.lastButtonPress) :
    step s i =
      ({ s with encoderPos := s.encoderPos + i.encDelta,
                lastReportedPos := s.encoderPos + i.encDelta,
                lastButtonPress := i.now,
                relay := false, phase := Phase.WaitAborted },
       [Event.relayWrite false, Event.cancelTone]) := by
  have hacc : (isButtonPressed s.lastButtonPress i.now i.buttonLow).1 = true :=
    (isButtonPressed_spec _ _ _).1.mpr ⟨hb, hdeb⟩
  have hc' : ({ s with encoderPos := s.encoderPos + i.encDelta } : State).countdownStarted
      = true := hc
  rw [step_main s i hp]
  unfold loop
  rw [encoderStep_counting _ _ hc']
  simp [buttonStep, abortCountdown, hacc, hc]

lemma step_wait_reject (s : State) (i : Input)
    (hp : s.phase = Phase.WaitFinished ∨ s.phase = Phase.WaitAborted)
    (hrej : (isButtonPressed s.lastButtonPress i.now i.buttonLow).1 = false) :
    step s i = ({ s with encoderPos := s.encoderPos + i.encDelta }, []) := by
  rw [step_wait s i hp]
  simp [waitStep, hrej]

lemma step_wait_reset (s : State) (i : Input)
    (hp : s.phase = Phase.WaitFinished ∨ s.phase = Phase.WaitAborted)
    (hacc : (isButtonPressed s.lastButtonPress i.now i.buttonLow).1 = true) :
    step s i =
      ({ s with encoderPos := s.lastReportedPos,
                lastButtonPress := i.now,
                countdownStarted := false, phase := Phase.Main },
       [Event.displayUpdate false s.minutes s.seconds s.initialTotalSeconds]) := by
  rw [step_wait s i hp]
  simp [waitStep, resetTimer, hacc]

lemma step_tick_decrement (s : State) (i : Input) (hp : s.phase = Phase.Main)
    (hc : s.countdownStarted = true) (hb : i.buttonLow = false)
    (hdue : 1000 ≤ i.now - s.lastCountdownUpdate)
    (hpos : 0 < s.seconds ∨ 0 < s.minutes) :
    step s i =
      (tickDecrement { s with encoderPos := s.encoderPos + i.encDelta,
                              lastReportedPos := s.encoderPos + i.encDelta,
                              lastCountdownUpdate := i.now },
       [Event.displayUpdate true
          (tickDecrement { s with encoderPos := s.encoderPos + i.encDelta,
                                  lastReportedPos := s.encoderPos + i.encDelta,
                                  lastCountdownUpdate := i.now }).minutes
          (tickDecrement { s with encoderPos := s.encoderPos + i.encDelta,
                                  lastReportedPos := s.encoderPos + i.encDelta,
                                  lastCountdownUpdate := i.now }).seconds
          s.initialTotalSeconds]) := by
  have hrej : (isButtonPressed s.lastButtonPress i.now i.buttonLow).1 = false := by
    simp [isButtonPressed, hb]
  have hc' : ({ s with encoderPos := s.encoderPos + i.encDelta } : State).countdownStarted
      = true := hc
  rw [step_main s i hp]
  unfold loop
  rw [encoderStep_counting _ _ hc']
  simp [buttonStep, hrej, hp, tickStep, hc, hdue, hpos, tickDecrement]

lemma step_tick_finish (s : State) (i : Input) (hp : s.phase = Phase.Main)
    (hc : s.countdownStarted = true) (hb : i.buttonLow = false)
    (hdue : 1000 ≤ i.now - s.lastCountdownUpdate)
    (hz : ¬(0 < s.seconds ∨ 0 < s.minutes)) :
    step s i =
      ({ s with encoderPos := s.encoderPos + i.encDelta,
                lastReportedPos := s.encoderPos + i.encDelta,
                lastCountdownUpdate := i.now,
                relay := false, phase := Phase.WaitFinished },
       [Event.relayWrite false, Event.alarm]) := by
  have hrej : (isButtonPressed s.lastButtonPress i.now i.buttonLow).1 = false := by
    simp [isButtonPressed, hb]
  have hc' : ({ s with encoderPos := s.encoderPos + i.encDelta } : State).countdownStarted
      = true := hc
  rw [step_main s i hp]
  unfold loop
  rw [encoderStep_counting _ _ hc']
  simp [buttonStep, hrej, hp, tickStep, hc, hdue, hz, countdownFinished]

lemma step_counting_frame (s : State) (i : Input) (hp : s.phase = Phase.Main)
    (hc : s.countdownStarted = true)
    (hnd : i.now - s.lastCountdownUpdate < 1000) :
    (step s i).1.minutes = s.minutes ∧ (step s i).1.seconds = s.seconds ∧
    (step s i).1.encoderPos = s.encoderPos + i.encDelta ∧
    (step s i).1.lastReportedPos = s.encoderPos + i.encDelta := by
  have hc' : ({ s with encoderPos := s.encoderPos + i.encDelta } : State).countdownStarted
      = true := hc
  have hnd' : ¬(1000 ≤ i.now - s.lastCountdownUpdate) := by omega
  rw [step_main s i hp]
  unfold loop
  rw [encoderStep_counting _ _ hc']
  by_cases hacc : (isButtonPressed s.lastButtonPress i.now i.buttonLow).1 = true
  · simp [buttonStep, abortCountdown, hacc, hc]
  · simp [buttonStep, hacc, hp, tickStep, hc, hnd']

lemma reach_s0 : Reachable s0 0 := Reachable.boot 300

lemma reach_s1 : Reachable s1 100 :=
  Reachable.next s0 0 ⟨100, false, -299⟩ reach_s0 (by decide)

lemma reach_s2 : Reachable s2 1000 :=
  Reachable.next s1 100 ⟨1000, true, 0⟩ reach_s1 (by decide)

lemma reach_s3 : Reachable s3 2000 :=
  Reachable.next s2 1000 ⟨2000, false, 0⟩ reach_s2 (by decide)

lemma reach_s4 : Reachable s4 3000 :=
  Reachable.next s3 2000 ⟨3000, false, 0⟩ reach_s3 (by decide)

lemma reach_s5 : Reachable s5 4000 :=
  Reachable.next s4 3000 ⟨4000, true, 0⟩ reach_s4 (by decide)

lemma reach_a1 : Reachable a1 100 :=
  Reachable.next s0 0 ⟨100, false, -288⟩ reach_s0 (by decide)

lemma reach_a2 : Reachable a2 1000 :=
  Reachable.next a1 100 ⟨1000, true, 0⟩ reach_a1 (by decide)

lemma reach_a3 : Reachable a3 2000 :=
  Reachable.next a2 1000 ⟨2000, false, 0⟩ reach_a2 (by decide)

lemma reach_a4 : Reachable a4 3000 :=
  Reachable.next a3 2000 ⟨3000, false, 0⟩ reach_a3 (by decide)

lemma timerState_counting_iff (s : State) :
    timerState s = TState.Counting ↔
      (s.phase = Phase.Main ∧ s.countdownStarted = true) := by
  unfold timerState
  cases hp : s.phase
  · split_ifs with h <;> simp [h]
  · simp
  · simp

/-!
Claim theorems.  Each claim of the specification is settled by exactly one
theorem below (plus, for the refuted ones, a closed counterexample over the
concrete executions above).
-/

/-- C1: in every reachable state the relay output is energized if and only
if the timer is in the `Counting` state; in `Configuring`, `Finished` and
`Aborted` — including the two terminal busy-wait loops, modelled by the
`WaitFinished`/`WaitAborted` phases — the relay is de-energized. -/
theorem C1_relay_iff_counting (s : State) (t : Nat) (h : Reachable s t) :
    s.relay = true ↔ timerState s = TState.Counting := by
  rw [timerState_counting_iff]
  exact (reachable_inv s t h).relay_iff

/-- C1 witness: in the concrete reachable counting state `s2` the relay is
energized. -/
theorem C1_witness : s2.relay = true :=
  (C1_relay_iff_counting s2 1000 reach_s2).mpr (by decide)

/-- C2 counterexample: the claim fails on the concrete execution that runs
a 0:01 countdown to the end and acknowledges the finish screen: the machine
is then back in `Configuring` with configured duration 0, below `MIN_TIME`.
-/
theorem C2_counterexample : ¬ C2_claim := by
  intro h
  exact absurd ((h s5 4000 reach_s5).1 (by decide)) (by decide)

/-- C2 amended: at every reachable point `0 ≤ minutes*60 + seconds ≤
MAX_TIME`, and while counting the remaining total is bounded by the
duration snapshot taken at countdown start; the lower bound `MIN_TIME` on
the configured duration does not hold after a countdown has run to
completion (the machine then shows 0:00 in `Configuring`). -/
theorem C2_duration_bounds (s : State) (t : Nat) (h : Reachable s t) :
    0 ≤ dur s ∧ dur s ≤ MAX_TIME ∧
    (timerState s = TState.Counting → dur s ≤ s.initialTotalSeconds) := by
  have hi := reachable_inv s t h
  refine ⟨?_, hi.dur_ub, ?_⟩
  · have h1 := hi.sec_lb
    have h2 := hi.min_lb
    unfold dur
    omega
  · intro hts
    exact hi.counting_le ((timerState_counting_iff s).mp hts).2

/-- C2 witness: the amended bounds at the concrete counting state `s2`. -/
theorem C2_witness :
    0 ≤ dur s2 ∧ dur s2 ≤ MAX_TIME ∧ dur s2 ≤ s2.initialTotalSeconds :=
  ⟨(C2_duration_bounds s2 1000 reach_s2).1,
   (C2_duration_bounds s2 1000 reach_s2).2.1,
   (C2_duration_bounds s2 1000 reach_s2).2.2 (by decide)⟩

/-- C3: whenever the loop observes an encoder change while configuring, the
new duration is `current + signed_delta * increment` clamped to
`[MIN_TIME, MAX_TIME]`, split into minutes and seconds and persisted to the
EEPROM cell, so the resulting duration always lies in `[1, 1800]` whatever
the magnitude or sign of the delta. -/
theorem C3_adjust_clamped (s : State) (i : Input) (hp : s.phase = Phase.Main)
    (hc : s.countdownStarted = false)
    (hch : s.lastReportedPos ≠ s.encoderPos + i.encDelta) :
    dur (step s i).1 =
      constrain (dur s + (s.encoderPos + i.encDelta - s.lastReportedPos) *
        (if i.now - s.lastEncoderChange < FAST_THRESHOLD then 10 else 1))
        MIN_TIME MAX_TIME ∧
    MIN_TIME ≤ dur (step s i).1 ∧ dur (step s i).1 ≤ MAX_TIME ∧
    (step s i).1.minutes = dur (step s i).1 / 60 ∧
    (step s i).1.seconds = dur (step s i).1 % 60 ∧
    (step s i).1.eeprom = dur (step s i).1 := by
  obtain ⟨h1, h2, h3, h4, h5, h6, h7⟩ := step_adjust s i hp hc hch
  exact ⟨h1, h2, h3, h4, h5, h6⟩

/-- C3 witness: a concrete slow +2 adjustment from 5:00 stays in range. -/
theorem C3_witness :
    MIN_TIME ≤ dur (step (setup 300) ⟨100, false, 2⟩).1 ∧
    dur (step (setup 300) ⟨100, false, 2⟩).1 ≤ MAX_TIME :=
  ⟨(C3_adjust_clamped (setup 300) ⟨100, false, 2⟩ rfl rfl (by decide)).2.1,
   (C3_adjust_clamped (setup 300) ⟨100, false, 2⟩ rfl rfl (by decide)).2.2.1⟩

/-- C6: loading a stored value in `[MIN_TIME, MAX_TIME]` yields exactly its
canonical minutes/seconds split, and re-saving that split reproduces the
stored value (round trip); loading any out-of-range value yields the 5:00
default, whose total is 300 seconds. -/
theorem C6_roundtrip (x : Int) :
    (MIN_TIME ≤ x → x ≤ MAX_TIME →
      loadLastConfiguration x = (x / 60, x % 60) ∧
      saveLastConfiguration (loadLastConfiguration x).1
        (loadLastConfiguration x).2 = x) ∧
    (x < MIN_TIME ∨ MAX_TIME < x →
      loadLastConfiguration x = (5, 0) ∧ saveLastConfiguration 5 0 = 300) := by
  constructor
  · intro h1 h2
    have hload : loadLastConfiguration x = (x / 60, x % 60) := by
      unfold loadLastConfiguration
      rw [if_pos ⟨h1, h2⟩]
    refine ⟨hload, ?_⟩
    rw [hload]
    unfold saveLastConfiguration
    simp only
    omega
  · intro h
    have hload : loadLastConfiguration x = (5, 0) := by
      unfold loadLastConfiguration
      rw [if_neg]
      unfold MIN_TIME MAX_TIME at h ⊢
      omega
    refine ⟨hload, ?_⟩
    unfold saveLastConfiguration
    norm_num

/-- C6 witness: the round trip at 90 seconds (1:30) and the default at the
out-of-range stored value 2000. -/
theorem C6_witness :
    (loadLastConfiguration 90 = (1, 30) ∧ saveLastConfiguration 1 30 = 90) ∧
    loadLastConfiguration 2000 = (5, 0) :=
  ⟨by
    have h := (C6_roundtrip 90).1 (by decide) (by decide)
    exact ⟨by rw [h.1]; decide, h.2⟩,
   ((C6_roundtrip 2000).2 (by decide)).1⟩

/-- C7: on an encoder change observed while configuring, each unit of
position delta adjusts the duration by 10 seconds when less than
`FAST_THRESHOLD` milliseconds elapsed since the previous configuring-mode
change, and by 1 second otherwise, uniformly for both rotation directions;
the change timestamp is updated to the current clock. -/
theorem C7_fast_slow (s : State) (i : Input) (hp : s.phase = Phase.Main)
    (hc : s.countdownStarted = false)
    (hch : s.lastReportedPos ≠ s.encoderPos + i.encDelta) :
    (i.now - s.lastEncoderChange < FAST_THRESHOLD →
      dur (step s i).1 =
        constrain (dur s + (s.encoderPos + i.encDelta - s.lastReportedPos) * 10)
          MIN_TIME MAX_TIME) ∧
    (¬(i.now - s.lastEncoderChange < FAST_THRESHOLD) →
      dur (step s i).1 =
        constrain (dur s + (s.encoderPos + i.encDelta - s.lastReportedPos) * 1)
          MIN_TIME MAX_TIME) ∧
    (step s i).1.lastEncoderChange = i.now := by
  obtain ⟨h1, _, _, _, _, _, h7⟩ := step_adjust s i hp hc hch
  refine ⟨?_, ?_, h7⟩
  · intro hf
    rw [h1, if_pos hf]
  · intro hf
    rw [h1, if_neg hf]

/-- C7 witness: a single fast tick (+1 at 10 ms after boot) from 5:00 lands
on the 10-second adjustment, 310 seconds. -/
theorem C7_witness :
    dur (step (setup 300) ⟨10, false, 1⟩).1 = 310 ∧
    (step (setup 300) ⟨10, false, 1⟩).1.lastEncoderChange = 10 :=
  ⟨by
    rw [(C7_fast_slow (setup 300) ⟨10, false, 1⟩ rfl rfl (by decide)).1 (by decide)]
    decide,
   (C7_fast_slow (setup 300) ⟨10, false, 1⟩ rfl rfl (by decide)).2.2⟩

/-- C4 counterexample: the claim fails on the concrete execution that
configures 0:12, starts, is aborted at 0:10 and acknowledged: the machine
returns to `Configuring` at 0:10 (the remaining value), not at the
pre-countdown 0:12. -/
theorem C4_counterexample : ¬ C4_claim := by
  intro h
  exact absurd
    (h a4 3000 ⟨3400, true, 0⟩ ⟨3800, true, 0⟩ reach_a4 (by decide) (by decide)
      (by decide) (by decide) (by decide) (by decide))
    (by decide)

/-- C4 amended: an accepted press while counting aborts with the relay
immediately de-energized and the displayed time unchanged, and a subsequent
accepted press returns to `Configuring` with the remaining value at the
abort retained as the configured time (it is not reset to the pre-countdown
duration and not to 0), the encoder counter being resynchronized. -/
theorem C4_abort_keeps_remaining (s : State) (t : Nat) (i j : Input)
    (_hr : Reachable s t) (_ht : t ≤ i.now) (_hij : i.now ≤ j.now)
    (hp : s.phase = Phase.Main) (hc : s.countdownStarted = true)
    (hb : i.buttonLow = true)
    (hdeb : DEBOUNCE_DELAY < i.now - s.lastButtonPress) :
    (step s i).1.phase = Phase.WaitAborted ∧ (step s i).1.relay = false ∧
    dur (step s i).1 = dur s ∧
    (j.buttonLow = true → DEBOUNCE_DELAY < j.now - (step s i).1.lastButtonPress →
      (step (step s i).1 j).1.phase = Phase.Main ∧
      (step (step s i).1 j).1.countdownStarted = false ∧
      dur (step (step s i).1 j).1 = dur s ∧
      (step (step s i).1 j).1.encoderPos
        = (step (step s i).1 j).1.lastReportedPos) := by
  have hs1 : (step s i).1 =
      { s with encoderPos := s.encoderPos + i.encDelta,
               lastReportedPos := s.encoderPos + i.encDelta,
               lastButtonPress := i.now,
               relay := false, phase := Phase.WaitAborted } := by
    rw [step_abort s i hp hc hb hdeb]
  refine ⟨by rw [hs1], by rw [hs1], by rw [hs1]; simp [dur], ?_⟩
  intro hjb hjdeb
  have hacc : (isButtonPressed (step s i).1.lastButtonPress j.now j.buttonLow).1
      = true :=
    (isButtonPressed_spec _ _ _).1.mpr ⟨hjb, hjdeb⟩
  have hs2 : (step (step s i).1 j).1 =
      { (step s i).1 with encoderPos := (step s i).1.lastReportedPos,
                          lastButtonPress := j.now,
                          countdownStarted := false, phase := Phase.Main } := by
    rw [step_wait_reset (step s i).1 j (Or.inr (by rw [hs1])) hacc]
  refine ⟨by rw [hs2], by rw [hs2], ?_, by rw [hs2]⟩
  rw [hs2]
  show dur (step s i).1 = dur s
  rw [hs1]
  simp [dur]

/-- C4 witness: the amended behavior on the concrete 0:12 run aborted at
0:10 — abort is immediate with the relay off and the time kept. -/
theorem C4_witness :
    (step a4 ⟨3400, true, 0⟩).1.phase = Phase.WaitAborted ∧
    (step a4 ⟨3400, true, 0⟩).1.relay = false ∧
    dur (step a4 ⟨3400, true, 0⟩).1 = dur a4 :=
  ⟨(C4_abort_keeps_remaining a4 3000 ⟨3400, true, 0⟩ ⟨3800, true, 0⟩ reach_a4
      (by decide) (by decide) (by decide) (by decide) (by decide) (by decide)).1,
   (C4_abort_keeps_remaining a4 3000 ⟨3400, true, 0⟩ ⟨3800, true, 0⟩ reach_a4
      (by decide) (by decide) (by decide) (by decide) (by decide) (by decide)).2.1,
   (C4_abort_keeps_remaining a4 3000 ⟨3400, true, 0⟩ ⟨3800, true, 0⟩ reach_a4
      (by decide) (by decide) (by decide) (by decide) (by decide) (by decide)).2.2.1⟩

/-- C5 counterexample: the claim fails on the concrete counting state at
0:01 — a single due tick only decrements to 0:00 and stays `Counting` with
the relay energized; it does not transition to `Finished`. -/
theorem C5_counterexample : ¬ C5_claim := by
  intro h
  exact absurd
    (h s2 1000 ⟨2000, false, 0⟩ reach_s2 (by decide) (by decide) (by decide)
      (by decide) (by decide) (by decide) (by decide))
    (by decide)

/-- C5 amended: while counting at 0:01, an undisturbed due tick decrements
the remaining time to 0:00 and the machine stays `Counting` with the relay
still energized; the transition to `Finished`, with the relay de-energized
and the alarm triggered, happens at the next due tick, taken from 0:00. -/
theorem C5_two_ticks_to_finish (s : State) (t : Nat) (i : Input)
    (hr : Reachable s t) (_ht : t ≤ i.now)
    (hp : s.phase = Phase.Main) (hc : s.countdownStarted = true)
    (hb : i.buttonLow = false)
    (hdue : 1000 ≤ i.now - s.lastCountdownUpdate) :
    (s.minutes = 0 → s.seconds = 1 →
      (step s i).1.phase = Phase.Main ∧ (step s i).1.countdownStarted = true ∧
      (step s i).1.minutes = 0 ∧ (step s i).1.seconds = 0 ∧
      (step s i).1.relay = true ∧ (step s i).1.lastCountdownUpdate = i.now) ∧
    (s.minutes = 0 → s.seconds = 0 →
      (step s i).1.phase = Phase.WaitFinished ∧ (step s i).1.relay = false ∧
      Event.alarm ∈ (step s i).2) := by
  constructor
  · intro hm hz
    have hpos : 0 < s.seconds ∨ 0 < s.minutes := Or.inl (by omega)
    have hrel : s.relay = true := (reachable_inv s t hr).relay_iff.mpr ⟨hp, hc⟩
    rw [step_tick_decrement s i hp hc hb hdue hpos]
    simp [tickDecrement, hz, hm, hrel, hp, hc]
  · intro hm hz
    have hnz : ¬(0 < s.seconds ∨ 0 < s.minutes) := by omega
    rw [step_tick_finish s i hp hc hb hdue hnz]
    simp

/-- C5 witness: the amended behavior on the concrete 0:01 counting state —
after the due tick, 0:00, still counting with the relay energized. -/
theorem C5_witness :
    (step s2 ⟨2000, false, 0⟩).1.seconds = 0 ∧
    (step s2 ⟨2000, false, 0⟩).1.relay = true :=
  ⟨((C5_two_ticks_to_finish s2 1000 ⟨2000, false, 0⟩ reach_s2 (by decide)
      (by decide) (by decide) (by decide) (by decide)).1 (by decide)
        (by decide)).2.2.2.1,
   ((C5_two_ticks_to_finish s2 1000 ⟨2000, false, 0⟩ reach_s2 (by decide)
      (by decide) (by decide) (by decide) (by decide)).1 (by decide)
        (by decide)).2.2.2.2.1⟩

/-- C8 counterexample: a single press held low through two polls 301 ms
apart is accepted twice, so the poll is not true at most once per physical
press. -/
theorem C8_counterexample : ¬ C8_claim := by
  intro h
  exact absurd
    (h 0 [(301, true), (602, true)]
      (List.Chain.cons (by norm_num) List.Chain.nil) (by decide))
    (by decide)

/-- C8 amended: the poll returns true exactly when the pin reads low and
more than `DEBOUNCE_DELAY` milliseconds have passed since the last accepted
press, updating only the stored acceptance time; hence two consecutive
acceptances are always more than 300 ms apart, but a press held low for
longer than `DEBOUNCE_DELAY` is accepted again, so at most once per
physical press does not hold. -/
theorem C8_debounce (l now : Nat) (b : Bool) :
    ((isButtonPressed l now b).1 = true ↔ (b = true ∧ DEBOUNCE_DELAY < now - l)) ∧
    ((isButtonPressed l now b).1 = true → (isButtonPressed l now b).2 = now) ∧
    ((isButtonPressed l now b).1 = false → (isButtonPressed l now b).2 = l) ∧
    ((isButtonPressed l now b).1 = true →
      ∀ now2 b2, (isButtonPressed now now2 b2).1 = true →
        DEBOUNCE_DELAY < now2 - now) := by
  obtain ⟨h1, h2, h3⟩ := isButtonPressed_spec l now b
  refine ⟨h1, h2, h3, ?_⟩
  intro _ now2 b2 hacc2
  exact ((isButtonPressed_spec now now2 b2).1.mp hacc2).2

/-- C8 witness: a poll at 301 ms with the stored time 0 is accepted and
records 301. -/
theorem C8_witness :
    (isButtonPressed 0 301 true).1 = true ∧ (isButtonPressed 0 301 true).2 = 301 :=
  ⟨(C8_debounce 0 301 true).1.mpr ⟨rfl, by decide⟩,
   (C8_debounce 0 301 true).2.1 ((C8_debounce 0 301 true).1.mpr ⟨rfl, by decide⟩)⟩

/-- C9: encoder deltas leave minutes and seconds unchanged outside
`Configuring`: while counting (between due ticks) the delta only
accumulates into the shared counter and the reported baseline, and in the
terminal waits the time is untouched while an accepted press resynchronizes
the shared counter to the last reported baseline on the way back to
`Configuring`, discarding the accumulated drift. -/
theorem C9_frame (s : State) (i : Input) :
    (s.phase = Phase.Main → s.countdownStarted = true →
      i.now - s.lastCountdownUpdate < 1000 →
      (step s i).1.minutes = s.minutes ∧ (step s i).1.seconds = s.seconds ∧
      (step s i).1.encoderPos = s.encoderPos + i.encDelta ∧
      (step s i).1.lastReportedPos = s.encoderPos + i.encDelta) ∧
    ((s.phase = Phase.WaitFinished ∨ s.phase = Phase.WaitAborted) →
      (step s i).1.minutes = s.minutes ∧ (step s i).1.seconds = s.seconds ∧
      ((isButtonPressed s.lastButtonPress i.now i.buttonLow).1 = true →
        (step s i).1.encoderPos = (step s i).1.lastReportedPos ∧
        (step s i).1.phase = Phase.Main ∧
        (step s i).1.countdownStarted = false)) := by
  constructor
  · intro hp hc hnd
    exact step_counting_frame s i hp hc hnd
  · intro hph
    by_cases hacc : (isButtonPressed s.lastButtonPress i.now i.buttonLow).1 = true
    · rw [step_wait_reset s i hph hacc]
      simp
    · have hrej : (isButtonPressed s.lastButtonPress i.now i.buttonLow).1 = false :=
        Bool.eq_false_iff.mpr hacc
      rw [step_wait_reject s i hph hrej]
      exact ⟨rfl, rfl, fun hx => absurd hx hacc⟩

/-- C9 witness: a +7 encoder drift in the concrete counting state `s2`
leaves the time unchanged while being absorbed into the baseline. -/
theorem C9_witness :
    (step s2 ⟨1500, false, 7⟩).1.seconds = s2.seconds ∧
    (step s2 ⟨1500, false, 7⟩).1.lastReportedPos = s2.encoderPos + 7 :=
  ⟨((C9_frame s2 ⟨1500, false, 7⟩).1 (by decide) (by decide) (by decide)).2.1,
   ((C9_frame s2 ⟨1500, false, 7⟩).1 (by decide) (by decide) (by decide)).2.2.2⟩

lemma encoderStep_no_true_display (s : State) (now : Nat) (m sec ini : Int)
    (hmem : Event.displayUpdate true m sec ini ∈ (encoderStep s now).2) :
    False := by
  unfold encoderStep encoderApply at hmem
  split_ifs at hmem with h1 h2 <;> simp_all

lemma buttonStep_no_display (s : State) (now : Nat) (b : Bool) (m sec ini : Int)
    (hmem : Event.displayUpdate true m sec ini ∈ (buttonStep s now b).2) :
    False := by
  unfold buttonStep startCountdown abortCountdown at hmem
  split_ifs at hmem <;> simp_all

lemma waitStep_no_true_display (s : State) (now : Nat) (b : Bool) (m sec ini : Int)
    (hmem : Event.displayUpdate true m sec ini ∈ (waitStep s now b).2) :
    False := by
  unfold waitStep resetTimer at hmem
  split_ifs at hmem <;> simp_all

lemma tickStep_display_init (s : State) (now : Nat) (h : Inv s) (m sec ini : Int)
    (hmem : Event.displayUpdate true m sec ini ∈ (tickStep s now).2) :
    1 ≤ ini := by
  unfold tickStep countdownFinished at hmem
  split_ifs at hmem with h1 h2 h3
  · simp only [List.mem_singleton, Event.displayUpdate.injEq] at hmem
    obtain ⟨_, _, _, hini⟩ := hmem
    have h6 := h.counting_le h1
    have h2' := h.sec_lb
    have h3' := h.min_lb
    unfold dur at h6
    omega
  · simp at hmem
  · simp at hmem
  · simp at hmem

/-- C10: in every reachable execution, every `updateDisplay` call made with
`countdownStarted` true passes `initialTotalSeconds ≥ 1`, so the progress
computation that divides by `initialTotalSeconds` never divides by zero —
even though a countdown can be started from the 0:00 left behind by a
finished run, because such a run reaches `countdownFinished` without any
counting-mode display update. -/
theorem C10_progress_divisor_positive (s : State) (t : Nat) (i : Input)
    (hr : Reachable s t) (_ht : t ≤ i.now) :
    ∀ m sec ini, Event.displayUpdate true m sec ini ∈ (step s i).2 →
      1 ≤ ini := by
  intro m sec ini hmem
  obtain ⟨h1, h2, h3, h4, h5, h6⟩ := reachable_inv s t hr
  have hInv' : Inv { s with encoderPos := s.encoderPos + i.encDelta } :=
    ⟨h1, h2, h3, h4, h5, h6⟩
  by_cases hp : s.phase = Phase.Main
  · rw [step_main s i hp] at hmem
    unfold loop at hmem
    have hInv3 :
        Inv (buttonStep
          (encoderStep { s with encoderPos := s.encoderPos + i.encDelta } i.now).1
          i.now i.buttonLow).1 :=
      inv_buttonStep _ _ _ (by rw [encoderStep_phase]; exact hp)
        (inv_encoderStep _ _ hInv')
    split_ifs at hmem
    · simp only [List.mem_append] at hmem
      rcases hmem with (hmem | hmem) | hmem
      · exact (encoderStep_no_true_display _ _ m sec ini hmem).elim
      · exact (buttonStep_no_display _ _ _ m sec ini hmem).elim
      · exact tickStep_display_init _ _ hInv3 m sec ini hmem
    · simp only [List.mem_append] at hmem
      rcases hmem with hmem | hmem
      · exact (encoderStep_no_true_display _ _ m sec ini hmem).elim
      · exact (buttonStep_no_display _ _ _ m sec ini hmem).elim
  · have hph : s.phase = Phase.WaitFinished ∨ s.phase = Phase.WaitAborted := by
      cases hq : s.phase <;> simp_all
    rw [step_wait s i hph] at hmem
    exact (waitStep_no_true_display _ _ _ m sec ini hmem).elim

/-- C10 witness: the counting-mode display refresh emitted by the due tick
from the concrete 0:01 counting state carries the positive initial total 1.
-/
theorem C10_witness :
    Event.displayUpdate true 0 0 1 ∈ (step s2 ⟨2000, false, 0⟩).2 ∧ (1 : Int) ≤ 1 :=
  ⟨by decide,
   C10_progress_divisor_positive s2 1000 ⟨2000, false, 0⟩ reach_s2 (by decide)
     0 0 1 (by decide)⟩

end UVPCB
